import Mathlib

/-!
# Verification of the MIDI-RS event decoder and timing engine

A shallow embedding of the tempo-aware MIDI parsing core of the MIDI-RS
repository (src/midi/parser.rs and src/midi/note.rs), together with proofs
of the specified properties.

Numeric modelling: the source computes times in IEEE floating point
(f64 accumulation, f32 results).  Here every time value is an exact
rational (ℚ), so the arithmetic identities the source targets hold
exactly; tick counters (u64 in the source) are ℕ.  Fallible operations
are modelled with Except.  The external SMF container decoder (the midly
crate) and file I/O are modelled as already-decoded inputs, mirroring the
error conversions performed in parser.rs.
-/

namespace MidiRS

/-- The Note record of src/midi/note.rs: pitch, velocity, start time in
seconds, duration in seconds, channel. -/
structure Note where
  pitch : Nat
  velocity : Nat
  start_time : ℚ
  duration : ℚ
  channel : Nat
deriving DecidableEq

/-- Note::new from src/midi/note.rs. -/
def Note.new (pitch velocity : Nat) (start_time duration : ℚ) (channel : Nat) : Note :=
  { pitch := pitch, velocity := velocity, start_time := start_time,
    duration := duration, channel := channel }

/-- Note::end_time: start_time + duration. -/
def Note.end_time (n : Note) : ℚ :=
  n.start_time + n.duration

/-- Note::is_visible from src/midi/note.rs: the asymmetric visibility
window (15% look-back, 85% look-ahead around the playhead). -/
def Note.is_visible (n : Note) (current_time time_window : ℚ) : Bool :=
  let window_start := current_time - time_window * (15 / 100)
  let window_end := current_time + time_window * (85 / 100)
  decide (n.start_time ≤ window_end) && decide (n.end_time ≥ window_start)

/-- The channel-voice messages consumed by the parser (midly::MidiMessage
restricted to the constructors the match in parse_track distinguishes). -/
inductive MidiMessage where
  | noteOn (key vel : Nat)
  | noteOff (key vel : Nat)
  | otherMessage
deriving DecidableEq

/-- The track-event kinds the parser distinguishes: channel-voice events,
tempo meta events, and everything else (ignored). -/
inductive TrackEventKind where
  | midi (channel : Nat) (message : MidiMessage)
  | tempoMeta (tempo : Nat)
  | otherEvent
deriving DecidableEq

/-- A delta-time-prefixed track event (midly::TrackEvent). -/
structure TrackEvent where
  delta : Nat
  kind : TrackEventKind
deriving DecidableEq

/-- First pass of parse_track: accumulate the absolute tick and record
every tempo meta event as an (absolute tick, tempo) pair.  The running
tick starts at the given base. -/
def tempoMapAux : List TrackEvent → Nat → List (Nat × ℚ)
  | [], _ => []
  | e :: rest, tick =>
    match e.kind with
    | .tempoMeta t => (tick + e.delta, (t : ℚ)) :: tempoMapAux rest (tick + e.delta)
    | _ => tempoMapAux rest (tick + e.delta)

/-- The tempo map of parse_track: the implicit (0, default_tempo) entry
followed by the recorded tempo events. -/
def buildTempoMap (track : List TrackEvent) (default_tempo : ℚ) : List (Nat × ℚ) :=
  (0, default_tempo) :: tempoMapAux track 0

/-- The loop of the ticks_to_seconds closure in parse_track: walk the
tempo map, adding the elapsed time of each complete segment, breaking at
the first entry past the target tick, then add the final partial
segment. -/
def ttsGo (ticks_per_beat : ℚ) (tick : Nat) :
    List (Nat × ℚ) → Nat → ℚ → ℚ → ℚ
  | [], last_tick, last_tempo, seconds =>
      seconds + ((tick - last_tick : Nat) : ℚ) / ticks_per_beat * (last_tempo / 1000000)
  | (tempo_tick, tempo) :: rest, last_tick, last_tempo, seconds =>
      if tick < tempo_tick then
        seconds + ((tick - last_tick : Nat) : ℚ) / ticks_per_beat * (last_tempo / 1000000)
      else
        ttsGo ticks_per_beat tick rest tempo_tick tempo
          (seconds + ((tempo_tick - last_tick : Nat) : ℚ) / ticks_per_beat
            * (last_tempo / 1000000))

/-- The ticks_to_seconds closure of parse_track, as a function of the
tempo map it captures. -/
def ticks_to_seconds (ticks_per_beat default_tempo : ℚ)
    (tempo_map : List (Nat × ℚ)) (tick : Nat) : ℚ :=
  ttsGo ticks_per_beat tick tempo_map 0 default_tempo 0

/-- ticks_to_seconds for a track: applied to the tempo map that
parse_track builds for that track. -/
def trackTicksToSeconds (ticks_per_beat default_tempo : ℚ)
    (track : List TrackEvent) (tick : Nat) : ℚ :=
  ticks_to_seconds ticks_per_beat default_tempo (buildTempoMap track default_tempo) tick

/-- The start tick of the segment following the current one: the next
tempo-map entry's tick, clipped at the target tick (the target itself
when no entry follows). -/
def segNext (t : Nat) : List (Nat × ℚ) → Nat
  | [] => t
  | (s2, _) :: _ => min s2 t

/-- Reference definition of the tick clock, following the spec's words:
the sum, over every tempo-map segment whose start tick is ≤ the target
tick, of (segmentDurationInTicks / ticksPerBeat) ×
(segmentTempoMicroseconds / 1,000,000), the final segment clipped at the
target tick. -/
def segmentsSum (ticks_per_beat : ℚ) (t : Nat) : List (Nat × ℚ) → ℚ
  | [] => 0
  | (s, tempo) :: rest =>
      (if s ≤ t then ((segNext t rest - s : Nat) : ℚ) / ticks_per_beat * (tempo / 1000000)
        else 0)
      + segmentsSum ticks_per_beat t rest

/-- Key of the active-note table: (pitch, channel). -/
abbrev NoteKey := Nat × Nat

/-- One entry of the active-note table: key ↦ (start_tick, velocity). -/
abbrev ActiveEntry := NoteKey × (Nat × Nat)

/-- Lookup in the active-note table (HashMap::get semantics on an
association list with unique keys). -/
def lookupActive (k : NoteKey) : List ActiveEntry → Option (Nat × Nat)
  | [] => none
  | (k2, v) :: rest => if k2 = k then some v else lookupActive k rest

/-- Removal from the active-note table (HashMap::remove). -/
def eraseActive (k : NoteKey) : List ActiveEntry → List ActiveEntry
  | [] => []
  | (k2, v) :: rest =>
      if k2 = k then eraseActive k rest else (k2, v) :: eraseActive k rest

/-- Insertion into the active-note table (HashMap::insert: replaces any
existing entry for the key). -/
def insertActive (k : NoteKey) (v : Nat × Nat) (l : List ActiveEntry) : List ActiveEntry :=
  (k, v) :: eraseActive k l

/-- The mutable state of parse_track's second pass: the active-note
table and the notes emitted so far. -/
structure PairerState where
  active : List ActiveEntry
  notes : List Note
deriving DecidableEq

/-- The closing transition of parse_track (shared by NoteOff and
zero-velocity NoteOn): remove the matching active entry if any, and emit
a note when the computed duration reaches the minimum. -/
def closeNote (min_note_duration : ℚ) (tts : Nat → ℚ) (st : PairerState)
    (pitch channel current_tick : Nat) : PairerState :=
  match lookupActive (pitch, channel) st.active with
  | none => st
  | some (start_tick, vel) =>
      let start_time := tts start_tick
      let end_time := tts current_tick
      let duration := end_time - start_time
      { active := eraseActive (pitch, channel) st.active,
        notes :=
          if min_note_duration ≤ duration then
            st.notes ++ [Note.new pitch vel start_time duration channel]
          else
            st.notes }

/-- Dispatch of one channel-voice message in parse_track's second pass. -/
def processMessage (min_note_duration : ℚ) (tts : Nat → ℚ) (st : PairerState)
    (channel current_tick : Nat) : MidiMessage → PairerState
  | .noteOn key vel =>
      if 0 < vel then
        { st with active := insertActive (key, channel) (current_tick, vel) st.active }
      else
        closeNote min_note_duration tts st key channel current_tick
  | .noteOff key _ => closeNote min_note_duration tts st key channel current_tick
  | .otherMessage => st

/-- One step of parse_track's second pass: advance the absolute tick by
the event's delta, then process channel-voice messages; tempo meta and
other events are ignored here. -/
def processEvent (min_note_duration : ℚ) (tts : Nat → ℚ)
    (s : PairerState × Nat) (e : TrackEvent) : PairerState × Nat :=
  match e.kind with
  | .midi channel message =>
      (processMessage min_note_duration tts s.1 channel (s.2 + e.delta) message,
        s.2 + e.delta)
  | _ => (s.1, s.2 + e.delta)

/-- The whole second pass of parse_track over one track. -/
def runPairer (min_note_duration : ℚ) (tts : Nat → ℚ)
    (track : List TrackEvent) : PairerState :=
  (track.foldl (processEvent min_note_duration tts) (⟨[], []⟩, 0)).1

/-- The end-of-track flush of one still-active entry: a note at the
recorded start tick with the recorded velocity and the 0.1 s fallback
duration. -/
def flushNote (tts : Nat → ℚ) (e : ActiveEntry) : Note :=
  Note.new e.1.1 e.2.2 (tts e.2.1) (1 / 10) e.1.2

/-- parse_track with an explicit order for the end-of-track flush of the
active-note table.  The source iterates a HashMap there, whose order is
unspecified; a run of the source corresponds to some permutation of the
table. -/
def parse_track_ord (min_note_duration ticks_per_beat default_tempo : ℚ)
    (track : List TrackEvent) (flush_order : List ActiveEntry) : List Note :=
  (runPairer min_note_duration (trackTicksToSeconds ticks_per_beat default_tempo track)
      track).notes
    ++ flush_order.map (flushNote (trackTicksToSeconds ticks_per_beat default_tempo track))

/-- parse_track with the canonical flush order (the association-list
order of the model's table). -/
def parse_track (min_note_duration ticks_per_beat default_tempo : ℚ)
    (track : List TrackEvent) : List Note :=
  parse_track_ord min_note_duration ticks_per_beat default_tempo track
    (runPairer min_note_duration (trackTicksToSeconds ticks_per_beat default_tempo track)
      track).active

/-- Comparison used by the final sort of parse_bytes: ascending
start_time. -/
def noteLe (a b : Note) : Prop :=
  a.start_time ≤ b.start_time

instance : DecidableRel noteLe := fun a b => inferInstanceAs (Decidable (_ ≤ _))

instance : IsTotal Note noteLe := ⟨fun a b => le_total a.start_time b.start_time⟩

instance : IsTrans Note noteLe := ⟨fun _ _ _ h1 h2 => le_trans h1 h2⟩

/-- The decoded SMF container as parse_bytes sees it after the external
decode: the header's ticks-per-beat resolution (already converted to a
number) and the track event lists. -/
structure Smf where
  ticks_per_beat : ℚ
  tracks : List (List TrackEvent)

/-- The note-building pipeline of parse_bytes on a decoded file:
parse every track with the default 500,000 µs/beat tempo, concatenate,
and stable-sort by start_time. -/
def parse_bytes_notes (min_note_duration : ℚ) (smf : Smf) : List Note :=
  List.insertionSort noteLe
    ((smf.tracks.map
        (parse_track min_note_duration smf.ticks_per_beat 500000)).flatten)

/-- The same pipeline with explicit per-track flush orders. -/
def parse_bytes_notes_ord (min_note_duration : ℚ) (smf : Smf)
    (orders : List (List ActiveEntry)) : List Note :=
  List.insertionSort noteLe
    ((List.zipWith (parse_track_ord min_note_duration smf.ticks_per_beat 500000)
        smf.tracks orders).flatten)

/-- The error type of the parser (src/midi/parser.rs ParseError). -/
inductive ParseError where
  | IoError (msg : String)
  | MidiError (msg : String)
  | InvalidFile (msg : String)
deriving DecidableEq

/-- parse_bytes at the error level: a failure of the external SMF decode
is converted to ParseError::MidiError by the From impl for midly::Error;
a successful decode yields the complete note list. -/
def parse_bytes_result (min_note_duration : ℚ) (decoded : Except String Smf) :
    Except ParseError (List Note) :=
  match decoded with
  | .error e => .error (.MidiError e)
  | .ok smf => .ok (parse_bytes_notes min_note_duration smf)

/-- parse_file at the error level: a failure of fs::read is converted to
ParseError::IoError; otherwise parse_bytes runs on the read bytes. -/
def parse_file_result (min_note_duration : ℚ)
    (read_result : Except String (Except String Smf)) : Except ParseError (List Note) :=
  match read_result with
  | .error e => .error (.IoError e)
  | .ok decoded => parse_bytes_result min_note_duration decoded

/-- A two-track file used to witness the sortedness claim. -/
def smfW : Smf :=
  ⟨480, [[⟨0, .midi 0 (.noteOn 60 100)⟩], [⟨1000, .midi 0 (.noteOn 72 100)⟩]]⟩

/-- A track opening two notes at tick 0 and never closing them; its
end-of-track flush has two entries with equal start times. -/
def track6 : List TrackEvent :=
  [⟨0, .midi 0 (.noteOn 60 100)⟩, ⟨0, .midi 0 (.noteOn 62 100)⟩]

/-- The one-track file built from track6. -/
def smf6 : Smf := ⟨480, [track6]⟩

/-! ## Tempo-map structure lemmas -/

/-- Ordering of tempo-map entries by tick. -/
def tickLe (a b : Nat × ℚ) : Prop :=
  a.1 ≤ b.1

/-- Every entry recorded by the first pass sits at or after the base
tick the pass started from. -/
theorem tempoMapAux_base_le (track : List TrackEvent) :
    ∀ base : Nat, ∀ x ∈ tempoMapAux track base, base ≤ x.1 := by
  induction track with
  | nil => intro base x hx; simp [tempoMapAux] at hx
  | cons e rest ih =>
    intro base x hx
    cases hk : e.kind with
    | tempoMeta t =>
      rw [tempoMapAux, hk] at hx
      rcases List.mem_cons.mp hx with hx | hx
      · simp [hx]
      · exact le_trans (Nat.le_add_right base e.delta) (ih (base + e.delta) x hx)
    | midi channel message =>
      rw [tempoMapAux, hk] at hx
      exact le_trans (Nat.le_add_right base e.delta) (ih (base + e.delta) x hx)
    | otherEvent =>
      rw [tempoMapAux, hk] at hx
      exact le_trans (Nat.le_add_right base e.delta) (ih (base + e.delta) x hx)

/-- The ticks recorded by the first pass are non-decreasing. -/
theorem tempoMapAux_sorted (track : List TrackEvent) :
    ∀ base : Nat, List.Pairwise tickLe (tempoMapAux track base) := by
  induction track with
  | nil => intro base; simp [tempoMapAux]
  | cons e rest ih =>
    intro base
    cases hk : e.kind with
    | tempoMeta t =>
      rw [tempoMapAux, hk]
      exact List.Pairwise.cons
        (fun y hy => tempoMapAux_base_le rest (base + e.delta) y hy)
        (ih (base + e.delta))
    | midi channel message => rw [tempoMapAux, hk]; exact ih (base + e.delta)
    | otherEvent => rw [tempoMapAux, hk]; exact ih (base + e.delta)

/-- The full tempo map (implicit entry included) is non-decreasing by
tick. -/
theorem buildTempoMap_sorted (track : List TrackEvent) (d : ℚ) :
    List.Pairwise tickLe (buildTempoMap track d) :=
  List.Pairwise.cons (fun y _ => Nat.zero_le y.1) (tempoMapAux_sorted track 0)

/-- Every tempo value in the first pass's map is non-negative (they are
casts of unsigned integers). -/
theorem tempoMapAux_tempo_nonneg (track : List TrackEvent) :
    ∀ base : Nat, ∀ x ∈ tempoMapAux track base, 0 ≤ x.2 := by
  induction track with
  | nil => intro base x hx; simp [tempoMapAux] at hx
  | cons e rest ih =>
    intro base x hx
    cases hk : e.kind with
    | tempoMeta t =>
      rw [tempoMapAux, hk] at hx
      rcases List.mem_cons.mp hx with hx | hx
      · simp [hx]
      · exact ih (base + e.delta) x hx
    | midi channel message => rw [tempoMapAux, hk] at hx; exact ih (base + e.delta) x hx
    | otherEvent => rw [tempoMapAux, hk] at hx; exact ih (base + e.delta) x hx

/-- Every tempo value in the full tempo map is non-negative when the
default is. -/
theorem buildTempoMap_tempo_nonneg (track : List TrackEvent) (d : ℚ) (hd : 0 ≤ d) :
    ∀ x ∈ buildTempoMap track d, 0 ≤ x.2 := by
  intro x hx
  rcases List.mem_cons.mp hx with hx | hx
  · rw [hx]; exact hd
  · exact tempoMapAux_tempo_nonneg track 0 x hx

/-! ## The tick clock agrees with the reference segment sum -/

/-- The reference sum vanishes when every segment starts past the target
tick. -/
theorem segmentsSum_eq_zero (tpb : ℚ) (t : Nat) :
    ∀ l : List (Nat × ℚ), (∀ x ∈ l, t < x.1) → segmentsSum tpb t l = 0 := by
  intro l
  induction l with
  | nil => intro _; rfl
  | cons p rest ih =>
    intro h
    obtain ⟨s, tempo⟩ := p
    have hs : t < s := h (s, tempo) (List.mem_cons_self _ _)
    rw [segmentsSum, if_neg (by omega), ih (fun x hx => h x (List.mem_cons_of_mem _ hx))]
    ring

/-- The loop of ticks_to_seconds computes the reference segment sum,
with the pending (last_tick, last_tempo) segment treated as the head of
the remaining map. -/
theorem ttsGo_eq_segmentsSum (tpb : ℚ) (t : Nat) :
    ∀ (l : List (Nat × ℚ)) (lt : Nat) (ltempo acc : ℚ),
      lt ≤ t → (∀ x ∈ l, lt ≤ x.1) → List.Pairwise tickLe l →
      ttsGo tpb t l lt ltempo acc = acc + segmentsSum tpb t ((lt, ltempo) :: l) := by
  intro l
  induction l with
  | nil =>
    intro lt ltempo acc hlt _ _
    rw [ttsGo, segmentsSum, segmentsSum, if_pos hlt, segNext]
    ring
  | cons p rest ih =>
    intro lt ltempo acc hlt hge hpw
    obtain ⟨s, tempo⟩ := p
    by_cases hst : t < s
    · rw [ttsGo, if_pos hst, segmentsSum, if_pos hlt, segNext]
      have hall : ∀ x ∈ (s, tempo) :: rest, t < x.1 := by
        intro x hx
        rcases List.mem_cons.mp hx with hx | hx
        · simp [hx]; omega
        · have := (List.pairwise_cons.mp hpw).1 x hx
          simp only [tickLe] at this
          omega
      rw [segmentsSum_eq_zero tpb t _ hall]
      have hmin : min s t = t := by omega
      rw [hmin]
      ring
    · push_neg at hst
      rw [ttsGo, if_neg (by omega)]
      have hrest_ge : ∀ x ∈ rest, s ≤ x.1 := fun x hx =>
        (List.pairwise_cons.mp hpw).1 x hx
      have hrest_pw : List.Pairwise tickLe rest := (List.pairwise_cons.mp hpw).2
      have hmin : min s t = s := by omega
      rw [segmentsSum, if_pos hlt, segNext, hmin,
        ih s tempo _ hst hrest_ge hrest_pw]
      ring

/-- On any track-built tempo map, ticks_to_seconds coincides with the
reference definition. -/
theorem ticks_to_seconds_eq_segmentsSum (tpb d : ℚ) (track : List TrackEvent) (t : Nat) :
    ticks_to_seconds tpb d (buildTempoMap track d) t
      = segmentsSum tpb t (buildTempoMap track d) := by
  rw [ticks_to_seconds, buildTempoMap, ttsGo, if_neg (by omega)]
  rw [ttsGo_eq_segmentsSum tpb t (tempoMapAux track 0) 0 d
      (0 + ((0 - 0 : Nat) : ℚ) / tpb * (d / 1000000))
      (Nat.zero_le t) (fun x hx => Nat.zero_le x.1) (tempoMapAux_sorted track 0)]
  simp

/-- Clipping at a larger target never decreases the next segment
boundary. -/
theorem segNext_mono (t1 t2 : Nat) (h : t1 ≤ t2) (l : List (Nat × ℚ)) :
    segNext t1 l ≤ segNext t2 l := by
  cases l with
  | nil => exact h
  | cons p rest => obtain ⟨s2, tempo⟩ := p; simp [segNext]; omega

/-- Each segment contributes a non-negative amount of time when the
resolution is positive and the tempo non-negative. -/
theorem segTerm_nonneg (tpb : ℚ) (hpb : 0 < tpb) (d : Nat) (tempo : ℚ)
    (htempo : 0 ≤ tempo) : 0 ≤ ((d : ℚ)) / tpb * (tempo / 1000000) := by
  apply mul_nonneg
  · exact div_nonneg (by positivity) (le_of_lt hpb)
  · positivity

/-- The reference sum is monotone in the target tick. -/
theorem segmentsSum_mono (tpb : ℚ) (hpb : 0 < tpb) (t1 t2 : Nat) (h : t1 ≤ t2) :
    ∀ l : List (Nat × ℚ), (∀ x ∈ l, 0 ≤ x.2) →
      segmentsSum tpb t1 l ≤ segmentsSum tpb t2 l := by
  intro l
  induction l with
  | nil => intro _; exact le_refl _
  | cons p rest ih =>
    intro hnn
    obtain ⟨s, tempo⟩ := p
    have htempo : 0 ≤ tempo := hnn (s, tempo) (List.mem_cons_self _ _)
    have hrest : ∀ x ∈ rest, 0 ≤ x.2 := fun x hx => hnn x (List.mem_cons_of_mem _ hx)
    rw [segmentsSum, segmentsSum]
    apply add_le_add _ (ih hrest)
    by_cases h1 : s ≤ t1
    · rw [if_pos h1, if_pos (le_trans h1 h)]
      apply mul_le_mul_of_nonneg_right _ (by positivity)
      rw [div_le_div_iff_of_pos_right hpb]
      have hseg : segNext t1 rest ≤ segNext t2 rest := segNext_mono t1 t2 h rest
      exact_mod_cast Nat.sub_le_sub_right hseg s
    · rw [if_neg h1]
      by_cases h2 : s ≤ t2
      · rw [if_pos h2]
        exact segTerm_nonneg tpb hpb _ tempo htempo
      · rw [if_neg h2]

/-- The reference sum at target tick 0 vanishes: every included segment
starts at 0 and is clipped at 0. -/
theorem segmentsSum_at_zero (tpb : ℚ) :
    ∀ l : List (Nat × ℚ), segmentsSum tpb 0 l = 0 := by
  intro l
  induction l with
  | nil => rfl
  | cons p rest ih =>
    obtain ⟨s, tempo⟩ := p
    rw [segmentsSum, ih]
    by_cases hs : s ≤ 0
    · rw [if_pos hs]
      have hz : segNext 0 rest - s = 0 := by
        cases rest with
        | nil => simp [segNext]
        | cons q qs => simp [segNext]
      rw [hz]
      simp
    · rw [if_neg hs]; simp

/-- C1: for every track event list and target tick, ticks_to_seconds
equals the reference definition (the sum over tempo-map segments whose
start tick is ≤ the target, each segment's contribution being
segmentTicks / ticksPerBeat × tempo / 1,000,000, the final segment
clipped at the target, with the implicit (0, 500,000) entry always
prepended); with ticksPerBeat 480 and only the default tempo,
ticks_to_seconds 480 is exactly 1/2 second (so within the 1e-4
tolerance). -/
theorem tickClock_matches_reference :
    (∀ (tpb : ℚ) (track : List TrackEvent) (t : Nat),
        trackTicksToSeconds tpb 500000 track t
          = segmentsSum tpb t (buildTempoMap track 500000))
  ∧ trackTicksToSeconds 480 500000 [] 480 = 1 / 2 := by
  constructor
  · intro tpb track t
    exact ticks_to_seconds_eq_segmentsSum tpb 500000 track t
  · norm_num [trackTicksToSeconds, ticks_to_seconds, buildTempoMap, tempoMapAux, ttsGo]

/-- C7: for every track's tempo map and positive ticks-per-beat (and any
non-negative default tempo), ticks_to_seconds is monotone non-decreasing
in the tick argument, and ticks_to_seconds 0 = 0. -/
theorem tickClock_monotone_and_zero (tpb d : ℚ) (track : List TrackEvent)
    (hpb : 0 < tpb) (hd : 0 ≤ d) :
    (∀ t1 t2 : Nat, t1 ≤ t2 →
        trackTicksToSeconds tpb d track t1 ≤ trackTicksToSeconds tpb d track t2)
  ∧ trackTicksToSeconds tpb d track 0 = 0 := by
  constructor
  · intro t1 t2 h
    rw [trackTicksToSeconds, trackTicksToSeconds,
      ticks_to_seconds_eq_segmentsSum, ticks_to_seconds_eq_segmentsSum]
    exact segmentsSum_mono tpb hpb t1 t2 h _ (buildTempoMap_tempo_nonneg track d hd)
  · rw [trackTicksToSeconds, ticks_to_seconds_eq_segmentsSum]
    exact segmentsSum_at_zero tpb _

/-- Witness for C7 at a concrete tempo map with one tempo change. -/
theorem tickClock_monotone_and_zero_witness :
    (trackTicksToSeconds 480 500000 [⟨0, .tempoMeta 250000⟩] 240
      ≤ trackTicksToSeconds 480 500000 [⟨0, .tempoMeta 250000⟩] 480)
  ∧ trackTicksToSeconds 480 500000 [⟨0, .tempoMeta 250000⟩] 0 = 0 :=
  ⟨(tickClock_monotone_and_zero 480 500000 [⟨0, .tempoMeta 250000⟩]
      (by norm_num) (by norm_num)).1 240 480 (by norm_num),
    (tickClock_monotone_and_zero 480 500000 [⟨0, .tempoMeta 250000⟩]
      (by norm_num) (by norm_num)).2⟩

/-- C2: on a close event (a NoteOff, or a NoteOn with velocity 0) whose
(pitch, channel) key has an active entry opened at start_tick with
note-on velocity v, the pairer removes the entry and appends
Note{pitch, v, start, end - start, channel} to the output exactly when
the duration end - start reaches the configured minimum; below the
minimum the output is unchanged (no note, no error).  Concretely, a
pair of duration 0.0005 s under the default 0.001 s minimum yields an
empty output. -/
theorem notePairer_close_emits_iff (m : ℚ) (tts : Nat → ℚ) (st : PairerState)
    (pitch channel vel start_tick v current_tick : Nat)
    (h : lookupActive (pitch, channel) st.active = some (start_tick, v)) :
    (processMessage m tts st channel current_tick (.noteOff pitch vel)
        = { active := eraseActive (pitch, channel) st.active,
            notes :=
              if m ≤ tts current_tick - tts start_tick then
                st.notes ++ [Note.new pitch v (tts start_tick)
                  (tts current_tick - tts start_tick) channel]
              else st.notes })
  ∧ (processMessage m tts st channel current_tick (.noteOn pitch 0)
        = { active := eraseActive (pitch, channel) st.active,
            notes :=
              if m ≤ tts current_tick - tts start_tick then
                st.notes ++ [Note.new pitch v (tts start_tick)
                  (tts current_tick - tts start_tick) channel]
              else st.notes })
  ∧ parse_track (1/1000) 1000 500000
      [⟨0, .midi 0 (.noteOn 60 64)⟩, ⟨1, .midi 0 (.noteOff 60 0)⟩] = [] := by
  refine ⟨?_, ?_, ?_⟩
  · simp [processMessage, closeNote, h]
  · simp [processMessage, closeNote, h]
  · norm_num [parse_track, parse_track_ord, runPairer, processEvent, processMessage,
      closeNote, insertActive, eraseActive, lookupActive, trackTicksToSeconds,
      ticks_to_seconds, buildTempoMap, tempoMapAux, ttsGo, flushNote, Note.new,
      List.foldl]

/-- Witness for C2: closing a concrete active entry whose computed
duration is 0 (below the minimum) removes the entry and emits nothing. -/
theorem notePairer_close_emits_iff_witness :
    processMessage (1/1000) (fun _ => 0) ⟨[((60, 0), (0, 100))], []⟩ 0 5
      (.noteOff 60 0) = (⟨[], []⟩ : PairerState) := by
  have h := (notePairer_close_emits_iff (1/1000) (fun _ => 0)
    ⟨[((60, 0), (0, 100))], []⟩ 60 0 0 0 100 5 (by simp [lookupActive])).1
  rw [h]
  norm_num [eraseActive]

/-- C3: every (pitch, channel) entry still active at the end of a track
is flushed as a note at the recorded start tick's time, with the
recorded note-on velocity and the 0.1 s fallback duration; an unmatched
NoteOn(72) at tick 1000 (ticksPerBeat 480, default tempo) yields exactly
one note, of start time 25/24 s and duration 1/10 s. -/
theorem unclosed_notes_flushed (m tpb d : ℚ) (track : List TrackEvent)
    (e : ActiveEntry)
    (h : e ∈ (runPairer m (trackTicksToSeconds tpb d track) track).active) :
    Note.new e.1.1 e.2.2 (trackTicksToSeconds tpb d track e.2.1) (1/10) e.1.2
      ∈ parse_track m tpb d track
  ∧ parse_track (1/1000) 480 500000 [⟨1000, .midi 0 (.noteOn 72 100)⟩]
      = [Note.new 72 100 (25/24) (1/10) 0] := by
  constructor
  · rw [parse_track, parse_track_ord]
    exact List.mem_append_right _ (List.mem_map.mpr ⟨e, h, rfl⟩)
  · norm_num [parse_track, parse_track_ord, runPairer, processEvent, processMessage,
      closeNote, insertActive, eraseActive, lookupActive, trackTicksToSeconds,
      ticks_to_seconds, buildTempoMap, tempoMapAux, ttsGo, flushNote, Note.new,
      List.foldl]

/-- Witness for C3: the unmatched NoteOn(72) at tick 1000 is flushed
into the output. -/
theorem unclosed_notes_flushed_witness :
    Note.new 72 100
        (trackTicksToSeconds 480 500000 [⟨1000, .midi 0 (.noteOn 72 100)⟩] 1000)
        (1/10) 0
      ∈ parse_track (1/1000) 480 500000 [⟨1000, .midi 0 (.noteOn 72 100)⟩] :=
  (unclosed_notes_flushed (1/1000) 480 500000 [⟨1000, .midi 0 (.noteOn 72 100)⟩]
    ((72, 0), (1000, 100))
    (by simp [runPairer, processEvent, processMessage, insertActive, eraseActive,
      List.foldl])).1

/-- C8: a close event (NoteOff, or NoteOn with velocity 0) whose
(pitch, channel) key has no active entry leaves the pairer state — both
the active table and the emitted notes — completely unchanged. -/
theorem orphan_close_discarded (m : ℚ) (tts : Nat → ℚ) (st : PairerState)
    (pitch channel vel current_tick : Nat)
    (h : lookupActive (pitch, channel) st.active = none) :
    processMessage m tts st channel current_tick (.noteOff pitch vel) = st
  ∧ processMessage m tts st channel current_tick (.noteOn pitch 0) = st := by
  constructor <;> simp [processMessage, closeNote, h]

/-- Witness for C8: an orphaned NoteOff on an empty table is a no-op. -/
theorem orphan_close_discarded_witness :
    processMessage (1/1000) (fun _ => 0) ⟨[], []⟩ 0 7 (.noteOff 60 64)
      = (⟨[], []⟩ : PairerState) :=
  (orphan_close_discarded (1/1000) (fun _ => 0) ⟨[], []⟩ 60 0 64 7
    (by simp [lookupActive])).1

/-- C10: the end-of-track flush bypasses the minimum-duration filter:
for every configured minimum d greater than the 0.1 s fallback, an
unclosed note is still emitted with duration exactly 1/10, while a
properly closed note of the same duration 1/10 is discarded. -/
theorem flush_bypasses_min_duration (d : ℚ) (h : (1 : ℚ)/10 < d) :
    parse_track d 480 500000 [⟨0, .midi 0 (.noteOn 60 80)⟩]
      = [Note.new 60 80 0 (1/10) 0]
  ∧ parse_track d 480 500000
      [⟨0, .midi 0 (.noteOn 60 80)⟩, ⟨96, .midi 0 (.noteOff 60 0)⟩] = [] := by
  have hno : ¬ (d ≤ (1 : ℚ)/10) := not_le.mpr h
  constructor
  · norm_num [parse_track, parse_track_ord, runPairer, processEvent, processMessage,
      closeNote, insertActive, eraseActive, lookupActive, trackTicksToSeconds,
      ticks_to_seconds, buildTempoMap, tempoMapAux, ttsGo, flushNote, Note.new,
      List.foldl]
  · norm_num [parse_track, parse_track_ord, runPairer, processEvent, processMessage,
      closeNote, insertActive, eraseActive, lookupActive, trackTicksToSeconds,
      ticks_to_seconds, buildTempoMap, tempoMapAux, ttsGo, flushNote, Note.new,
      List.foldl, hno]

/-- Witness for C10 at the concrete minimum 0.2 s. -/
theorem flush_bypasses_min_duration_witness :
    parse_track (2/10) 480 500000 [⟨0, .midi 0 (.noteOn 60 80)⟩]
      = [Note.new 60 80 0 (1/10) 0]
  ∧ parse_track (2/10) 480 500000
      [⟨0, .midi 0 (.noteOn 60 80)⟩, ⟨96, .midi 0 (.noteOff 60 0)⟩] = [] :=
  flush_bypasses_min_duration (2/10) (by norm_num)

/-- C9: is_visible returns true exactly when the note starts no later
than currentTime + 0.85·window and ends no earlier than
currentTime - 0.15·window; the spec's three concrete visibility cases
hold. -/
theorem visibility_iff (n : Note) (c w : ℚ) :
    (n.is_visible c w = true
      ↔ (n.start_time ≤ c + (85/100) * w ∧ n.end_time ≥ c - (15/100) * w))
  ∧ (Note.new 60 100 5 1 0).is_visible 5 10 = true
  ∧ (Note.new 60 100 5 1 0).is_visible 0 10 = true
  ∧ (Note.new 60 100 5 1 0).is_visible 20 10 = false := by
  refine ⟨?_, ?_, ?_, ?_⟩
  · simp [Note.is_visible, mul_comm]
  · norm_num [Note.is_visible, Note.end_time, Note.new]
  · norm_num [Note.is_visible, Note.end_time, Note.new]
  · norm_num [Note.is_visible, Note.end_time, Note.new]

/-- C4: the output of parse_bytes is sorted ascending by start_time:
the note at any earlier index starts no later than the note at any
later index. -/
theorem output_sorted_by_start_time (m : ℚ) (smf : Smf)
    (i j : Fin (parse_bytes_notes m smf).length) (hij : i < j) :
    ((parse_bytes_notes m smf).get i).start_time
      ≤ ((parse_bytes_notes m smf).get j).start_time := by
  have hs : List.Sorted noteLe (parse_bytes_notes m smf) :=
    List.sorted_insertionSort noteLe _
  exact hs.rel_get_of_lt hij

/-- The witness file parses to exactly two notes. -/
theorem smfW_length : (parse_bytes_notes (1/1000) smfW).length = 2 := by
  norm_num [parse_bytes_notes, smfW, parse_track, parse_track_ord, runPairer,
    processEvent, processMessage, closeNote, insertActive, eraseActive,
    lookupActive, trackTicksToSeconds, ticks_to_seconds, buildTempoMap,
    tempoMapAux, ttsGo, flushNote, Note.new, List.foldl, noteLe]

/-- Witness for C4 on the two-note file. -/
theorem output_sorted_by_start_time_witness :
    ((parse_bytes_notes (1/1000) smfW).get
        ⟨0, by rw [smfW_length]; norm_num⟩).start_time
      ≤ ((parse_bytes_notes (1/1000) smfW).get
        ⟨1, by rw [smfW_length]; norm_num⟩).start_time :=
  output_sorted_by_start_time (1/1000) smfW _ _ (by simp [Fin.lt_def])

/-- C5 (amended): parse_file/parse_bytes return either the complete
note list of a successful parse or a single tagged error, never a
partial list; an I/O failure is reported as IoError and a failed
container decode as MidiError, while the declared InvalidFile variant is
never produced by either entry point. -/
theorem parse_error_reporting (m : ℚ) (rr : Except String (Except String Smf)) :
    (∀ s, parse_file_result m rr ≠ .error (.InvalidFile s))
  ∧ (∀ s, parse_file_result m (.error s) = .error (.IoError s))
  ∧ (∀ e, parse_file_result m (.ok (.error e)) = .error (.MidiError e))
  ∧ (∀ smf, parse_file_result m (.ok (.ok smf)) = .ok (parse_bytes_notes m smf)) := by
  refine ⟨?_, fun s => rfl, fun e => rfl, fun smf => rfl⟩
  intro s
  match rr with
  | .error e => simp [parse_file_result]
  | .ok (.error e) => simp [parse_file_result, parse_bytes_result]
  | .ok (.ok smf) => simp [parse_file_result, parse_bytes_result]

/-- Counterexample for C5 as stated: an input that is not a
recognizable Standard MIDI File is reported as MidiError (via the From
conversion of the decoder's error), not as InvalidFile. -/
theorem invalid_file_counterexample :
    parse_bytes_result (1/1000) (.error "not a standard midi file")
      = .error (.MidiError "not a standard midi file")
  ∧ parse_bytes_result (1/1000) (.error "not a standard midi file")
      ≠ .error (.InvalidFile "not a standard midi file") := by
  exact ⟨rfl, by simp [parse_bytes_result]⟩

/-- Counterexample for C6 as stated: the end-of-track flush iterates a
HashMap, so a run of the source corresponds to an arbitrary permutation
of the remaining active entries; two permutations of the same final
table — both reachable orders — produce different output sequences on
this input, so two runs on identical bytes need not agree. -/
theorem determinism_counterexample :
    (runPairer (1/1000) (trackTicksToSeconds 480 500000 track6) track6).active
      = [((62, 0), (0, 100)), ((60, 0), (0, 100))]
  ∧ List.Perm [((62, 0), (0, 100)), ((60, 0), (0, 100))]
      [((60, 0), (0, 100)), ((62, 0), (0, 100))]
  ∧ parse_bytes_notes_ord (1/1000) smf6 [[((62, 0), (0, 100)), ((60, 0), (0, 100))]]
      ≠ parse_bytes_notes_ord (1/1000) smf6 [[((60, 0), (0, 100)), ((62, 0), (0, 100))]] := by
  refine ⟨?_, List.Perm.swap _ _ _, ?_⟩
  · simp [runPairer, track6, processEvent, processMessage, insertActive,
      eraseActive, List.foldl]
  · norm_num [parse_bytes_notes_ord, smf6, track6, parse_track_ord, runPairer,
      processEvent, processMessage, closeNote, insertActive, eraseActive,
      lookupActive, trackTicksToSeconds, ticks_to_seconds, buildTempoMap,
      tempoMapAux, ttsGo, flushNote, Note.new, List.foldl, noteLe]

/-- parse_track_ord sends permuted flush orders to permuted outputs. -/
theorem parse_track_ord_perm (m tpb d : ℚ) (track : List TrackEvent)
    (o1 o2 : List ActiveEntry) (h : o1.Perm o2) :
    (parse_track_ord m tpb d track o1).Perm (parse_track_ord m tpb d track o2) := by
  rw [parse_track_ord, parse_track_ord]
  exact List.Perm.append_left _ (h.map _)

/-- Pointwise-permuted flush orders give pointwise-permuted per-track
outputs. -/
theorem zipWith_parse_track_ord_forall2 (m tpb d : ℚ) :
    ∀ (o1 o2 : List (List ActiveEntry)), List.Forall₂ List.Perm o1 o2 →
      ∀ tracks : List (List TrackEvent),
        List.Forall₂ List.Perm
          (List.zipWith (parse_track_ord m tpb d) tracks o1)
          (List.zipWith (parse_track_ord m tpb d) tracks o2) := by
  intro o1 o2 h
  induction h with
  | nil => intro tracks; simp
  | cons hp _ ih =>
    intro tracks
    cases tracks with
    | nil => simp
    | cons tr trs =>
      exact List.Forall₂.cons (parse_track_ord_perm m tpb d tr _ _ hp) (ih trs)

/-- C6 (amended): the parse is a pure function of the input bytes and
the per-track flush orders; for any two families of flush orders that
are pointwise permutations of each other (as any two runs' HashMap
iteration orders of the same final tables are), the two outputs are
permutations of each other and each is sorted ascending by start_time
with a stable sort — so the outputs agree as multisets, and the
sequence itself is deterministic exactly up to the relative order of
equal-start_time flushed notes. -/
theorem determinism_up_to_flush_order (m : ℚ) (smf : Smf)
    (ords1 ords2 : List (List ActiveEntry))
    (h : List.Forall₂ List.Perm ords1 ords2) :
    (parse_bytes_notes_ord m smf ords1).Perm (parse_bytes_notes_ord m smf ords2)
  ∧ List.Sorted noteLe (parse_bytes_notes_ord m smf ords1)
  ∧ List.Sorted noteLe (parse_bytes_notes_ord m smf ords2) := by
  refine ⟨?_, List.sorted_insertionSort noteLe _, List.sorted_insertionSort noteLe _⟩
  rw [parse_bytes_notes_ord, parse_bytes_notes_ord]
  refine (List.perm_insertionSort noteLe _).trans
    (List.Perm.trans ?_ (List.perm_insertionSort noteLe _).symm)
  exact List.Perm.flatten_congr
    (zipWith_parse_track_ord_forall2 m smf.ticks_per_beat 500000 ords1 ords2 h
      smf.tracks)

/-- Witness for C6 (amended) on the two-unclosed-note file with the two
flush orders of its final table. -/
theorem determinism_up_to_flush_order_witness :
    (parse_bytes_notes_ord (1/1000) smf6
        [[((62, 0), (0, 100)), ((60, 0), (0, 100))]]).Perm
      (parse_bytes_notes_ord (1/1000) smf6
        [[((60, 0), (0, 100)), ((62, 0), (0, 100))]])
  ∧ List.Sorted noteLe (parse_bytes_notes_ord (1/1000) smf6
      [[((62, 0), (0, 100)), ((60, 0), (0, 100))]])
  ∧ List.Sorted noteLe (parse_bytes_notes_ord (1/1000) smf6
      [[((60, 0), (0, 100)), ((62, 0), (0, 100))]]) :=
  determinism_up_to_flush_order (1/1000) smf6 _ _
    (List.Forall₂.cons (List.Perm.swap _ _ _) List.Forall₂.nil)

end MidiRS
